import Mathlib

/-!
Shallow embedding of `sunverse/objects/notification.py` and
`sunverse/objects/live.py`.

Payloads are decoded JSON documents; we model them with the inductive
`JValue`.  Fallible Python operations (subscripting, attribute access,
`raise`) are modelled with `Except PyError`.  The dynamic typing of Python means
every extracted field is itself a `JValue`.
-/

namespace SunWeverse

/-- A decoded JSON value (the payload shape consumed by both classes). -/
inductive JValue where
  | null : JValue
  | bool : Bool → JValue
  | int : Int → JValue
  | str : String → JValue
  | arr : List JValue → JValue
  | obj : List (String × JValue) → JValue

/-- The Python exceptions the embedded code can raise. -/
inductive PyError where
  | keyError (k : String)
  | typeError
  | attributeError
  | indexError
  | notImplementedError
  deriving DecidableEq

/-- Python `data[k]` on a payload value: `KeyError` when the key is absent,
`TypeError` when the value is not a dict. -/
def dictGet (v : JValue) (k : String) : Except PyError JValue :=
  match v with
  | .obj fs =>
    match fs.find? (fun p => p.1 == k) with
    | some p => .ok p.2
    | none => .error (.keyError k)
  | _ => .error .typeError

/-- Python `data.get(k)`: `none` when the key is absent (Python `None`),
an error when the receiver is not a dict (`AttributeError`). -/
def dictGetOpt (v : JValue) (k : String) : Except PyError (Option JValue) :=
  match v with
  | .obj fs => .ok ((fs.find? (fun p => p.1 == k)).map Prod.snd)
  | _ => .error .attributeError

/-- A chain of subscript lookups `data[k1][k2]...`. -/
def dictGetPath : JValue → List String → Except PyError JValue
  | v, [] => .ok v
  | v, k :: ks =>
    match dictGet v k with
    | .ok w => dictGetPath w ks
    | .error e => .error e

/-- Python truthiness (`bool(v)`) on JSON-shaped values. -/
def pyTruthy : JValue → Bool
  | .null => false
  | .bool b => b
  | .int n => n != 0
  | .str s => !s.isEmpty
  | .arr l => !l.isEmpty
  | .obj l => !l.isEmpty

/-- Python `v[i]` for a natural index: list indexing, 1-character strings
for string indexing, `KeyError` for dicts (the modelled JSON objects carry
string keys, so an integer key is always missing), `TypeError` otherwise. -/
def pyIndex (v : JValue) (i : Nat) : Except PyError JValue :=
  match v with
  | .arr l =>
    match l.get? i with
    | some x => .ok x
    | none => .error .indexError
  | .str s =>
    match s.data.get? i with
    | some c => .ok (.str (String.mk [c]))
    | none => .error .indexError
  | .obj _ => .error (.keyError (toString i))
  | _ => .error .typeError

mutual

/-- Python `==` on JSON-shaped values.  Scalars compare by value with the
`bool`/`int` numeric coercion (`True == 1`); lists compare elementwise.
Dicts are compared pairwise in order (CPython dict equality is
order-insensitive; the payload fields compared by the embedded code are
scalars, where the two notions agree). -/
def JValue.pyEq : JValue → JValue → Bool
  | .null, .null => true
  | .bool a, .bool b => a == b
  | .bool a, .int b => (if a then (1 : Int) else 0) == b
  | .int a, .bool b => a == (if b then (1 : Int) else 0)
  | .int a, .int b => a == b
  | .str a, .str b => a == b
  | .arr as, .arr bs => pyEqList as bs
  | .obj fs, .obj gs => pyEqObjList fs gs
  | _, _ => false

def pyEqList : List JValue → List JValue → Bool
  | [], [] => true
  | a :: as, b :: bs => JValue.pyEq a b && pyEqList as bs
  | _, _ => false

def pyEqObjList : List (String × JValue) → List (String × JValue) → Bool
  | [], [] => true
  | (k1, v1) :: fs, (k2, v2) :: gs =>
    k1 == k2 && JValue.pyEq v1 v2 && pyEqObjList fs gs
  | _, _ => false

end

/-- The CPython hash of an `int`: reduction modulo `2^61 - 1` keeping the sign,
with `-1` mapped to `-2`. -/
def intHash (n : Int) : Int :=
  let m : Int := 2 ^ 61 - 1
  let r := if 0 ≤ n then n % m else -((-n) % m)
  if r = -1 then -2 else r

/-- A deterministic stand-in for the (seed-randomized) CPython string hash: a
fixed function of the characters.  Only the facts that it is a function of
the string and returns an `Int` matter to the embedded code. -/
def strHash (s : String) : Int :=
  intHash (s.data.foldl (fun acc c => acc * 31 + Int.ofNat c.toNat) 7)

/-- Python `hash(v)` on JSON-shaped values: `None`, booleans, ints and
strings are hashable (`hash(True) == hash(1) == 1`); lists and dicts raise
`TypeError`. -/
def pyHash : JValue → Except PyError Int
  | .null => .ok 0
  | .bool b => .ok (if b then 1 else 0)
  | .int n => .ok (intHash n)
  | .str s => .ok (strHash s)
  | .arr _ => .error .typeError
  | .obj _ => .error .typeError

/-- The members of `sunverse.enums.PostTypes` used by `Notification.post_type`. -/
inductive PostTypes where
  | USER_POST_COMMENT
  | MEDIA_COMMENT
  | MOMENT_COMMENT
  | ARTIST_POST_COMMENT
  | POST
  | MOMENT
  | LIVE
  | MEDIA
  | NOTICE
  | BIRTHDAY
  deriving DecidableEq

/-- Result type: `Notification.post_type` returns either a `PostTypes` member or the raw
string `"NOT IMPLEMENTED"`; this sum mirrors that untyped union. -/
inductive PostTypeResult where
  | enum (t : PostTypes)
  | rawString (s : String)
  deriving DecidableEq

/-- The fields assigned by `Notification.__init__` (dynamic typing: every
field holds a `JValue`; `image_url` is `Optional`). -/
structure Notification where
  data : JValue
  id : JValue
  is_read : JValue
  title : JValue
  message_ko : JValue
  message_ja : JValue
  message_en : JValue
  logo_image_url : JValue
  image_url : Option JValue
  web_url : JValue
  time_created : JValue
  count : JValue
  community_id : JValue

/-- Constructor `Notification.__init__`: the required-key lookups in source order;
`imageUrl` alone uses `data.get` (safe lookup). -/
def Notification.init (data : JValue) : Except PyError Notification := do
  let idv ← dictGet data "activityId"
  let readv ← dictGet data "read"
  let titlev ← dictGet data "title"
  let ko ← dictGetPath data ["message", "values", "ko"]
  let ja ← dictGetPath data ["message", "values", "ja"]
  let en ← dictGetPath data ["message", "values", "en"]
  let logo ← dictGet data "logoImageUrl"
  let img ← dictGetOpt data "imageUrl"
  let web ← dictGet data "webUrl"
  let timev ← dictGet data "time"
  let countv ← dictGet data "count"
  let comm ← dictGetPath data ["community", "communityId"]
  pure { data := data, id := idv, is_read := readv, title := titlev,
         message_ko := ko, message_ja := ja, message_en := en,
         logo_image_url := logo, image_url := img, web_url := web,
         time_created := timev, count := countv, community_id := comm }

/-- An arbitrary Python value handed to `Notification.__eq__`: either another
`Notification` or any non-`Notification` value (modelled by `JValue`, e.g.
the integer `5`). -/
inductive PyValue where
  | notif (n : Notification)
  | jval (v : JValue)

/-- Method `Notification.__eq__`: compares `id`s when `other` is a `Notification`,
otherwise raises `NotImplementedError`. -/
def Notification.beq (self : Notification) (other : PyValue) : Except PyError Bool :=
  match other with
  | .notif o => .ok (self.id.pyEq o.id)
  | .jval _ => .error .notImplementedError

/-- Method `Notification.__hash__`: `hash(self.id)`. -/
def Notification.hash (self : Notification) : Except PyError Int :=
  pyHash self.id

/-! ### The two regex searches of `Notification.post_id`

`re.search(r"([\d]-\d+)", s)` and the fallback `re.search(r"\d+", s)` are
modelled directly: a search tries to match at each position from the left,
and `\d+` matches greedily.  `\d` is modelled as an ASCII decimal digit
(Weverse message identifiers are ASCII tokens). -/

/-- Greedy `\d*`: the longest digit-only prefix. -/
def takeDigits : List Char → List Char
  | [] => []
  | c :: cs => if c.isDigit then c :: takeDigits cs else []

/-- Match `\d-\d+` (greedily) at the head of the text: a digit, a hyphen and
a non-empty greedy digit run.  The whole pattern is the first capturing
group, so the matched text is also `group(1)`. -/
def matchDashAt : List Char → Option (List Char)
  | d :: c :: rest =>
    if d.isDigit && c == '-' && !(takeDigits rest).isEmpty then
      some (d :: c :: takeDigits rest)
    else none
  | _ => none

/-- Search `re.search(r"([\d]-\d+)", s)`: try `matchDashAt` at each position from
the left, returning the first (leftmost) match.  (At the empty text the
pattern cannot match, so the search fails.) -/
def searchDash : List Char → Option (List Char)
  | [] => none
  | c :: cs =>
    match matchDashAt (c :: cs) with
    | some m => some m
    | none => searchDash cs

/-- Match `\d+` (greedily) at the head of the text. -/
def matchDigitsAt : List Char → Option (List Char)
  | [] => none
  | c :: cs => if c.isDigit then some (c :: takeDigits cs) else none

/-- Search `re.search(r"\d+", s)`: leftmost greedy run of digits.  (At the empty
text the pattern cannot match, so the search fails.) -/
def searchDigits : List Char → Option (List Char)
  | [] => none
  | c :: cs =>
    match matchDigitsAt (c :: cs) with
    | some m => some m
    | none => searchDigits cs

/-- Spec side: a piece of text matching `\d-\d+` (a digit, a hyphen,
one-or-more digits). -/
def isDashMatchB : List Char → Bool
  | d :: c :: ds => d.isDigit && c == '-' && !ds.isEmpty && ds.all Char.isDigit
  | _ => false

/-- Spec side: a piece of text matching `\d+` (a non-empty run of digits). -/
def isDigitRunB (m : List Char) : Bool :=
  !m.isEmpty && m.all Char.isDigit

/-- Property `Notification.post_id`: search `([\d]-\d+)` over `data["messageId"]`,
fall back to `\d+`, and return `match.group(0)`.  A missing `messageId` key
raises `KeyError`; a non-string `messageId` raises `TypeError` inside `re`;
when neither pattern matches, `match` is `None` and `.group(0)` raises
`AttributeError`. -/
def Notification.postId (self : Notification) : Except PyError String := do
  let mid ← dictGet self.data "messageId"
  match mid with
  | .str s =>
    match searchDash s.data with
    | some m => .ok (String.mk m)
    | none =>
      match searchDigits s.data with
      | some m => .ok (String.mk m)
      | none => .error .attributeError
  | _ => .error .typeError

/-- The `post_types` dict of `Notification.post_type`, as the ordered list of
its insertions (CPython dicts iterate in insertion order). -/
def postTypesTable : List (String × PostTypes) :=
  [("T_FEED_COMMENT", .USER_POST_COMMENT),
   ("ST_FEED_COMMENT", .USER_POST_COMMENT),
   ("_MEDIA_COMMENT", .MEDIA_COMMENT),
   ("_MOMENT_COMMENT", .MOMENT_COMMENT),
   ("MOMENT_COMMENT", .MOMENT_COMMENT),
   ("ARTIST_COMMENT", .ARTIST_POST_COMMENT),
   ("ARTIST_POST", .POST),
   ("ARTIST_MOMENT", .MOMENT),
   ("ARTIST_LIVE_ON_AIR", .LIVE),
   ("COMMUNITY_MEDIA", .MEDIA),
   ("NOTICE", .NOTICE),
   ("COMMUNITY_ANNIVERSARY", .BIRTHDAY)]

/-- Does `needle` occur at the head of `hay`? -/
def startsWithL : List Char → List Char → Bool
  | [], _ => true
  | _ :: _, [] => false
  | a :: as, b :: bs => a == b && startsWithL as bs

/-- The Python `needle in hay` on strings: substring containment. -/
def containsL (needle hay : List Char) : Bool :=
  startsWithL needle hay ||
    match hay with
    | [] => false
    | _ :: bs => containsL needle bs

/-- Property `Notification.post_type`: scan the table in declared order and return the
value of the first key contained in `data["messageId"]`; fall through to the
raw string `"NOT IMPLEMENTED"`. -/
def Notification.postType (self : Notification) : Except PyError PostTypeResult := do
  let mid ← dictGet self.data "messageId"
  match mid with
  | .str s =>
    match postTypesTable.find? (fun p => containsL p.1.data s.data) with
    | some p => .ok (.enum p.2)
    | none => .ok (.rawString "NOT IMPLEMENTED")
  | _ => .error .typeError

/-- Property `Notification.author_id`: `if self.data.get("authors"):` then
`self.data["authors"][0]["memberId"]`, else `None`. -/
def Notification.authorId (self : Notification) : Except PyError (Option JValue) := do
  let a ← dictGetOpt self.data "authors"
  if pyTruthy (a.getD .null) then do
    let authors ← dictGet self.data "authors"
    let first ← pyIndex authors 0
    let mid ← dictGet first "memberId"
    pure (some mid)
  else
    pure none

/-! ### `sunverse/objects/live.py` -/

/-- The base-media record `Live` inherits from. -/
structure WeverseMedia where
  data : JValue
  id : JValue
  title : JValue

/-- Modelled from the spec: `WeverseMedia.__init__` lives in
`sunverse/objects/media.py`, which is not among the sources; the spec
describes it only as "a generic media base record (title, id, timestamps,
etc., defined elsewhere)" whose fields come from the payload, and
`Live.__repr__` reads `self.id` and `self.title` from it.  We model it as
the required extraction of those two fields. -/
def WeverseMedia.init (data : JValue) : Except PyError WeverseMedia := do
  let idv ← dictGet data "id"
  let titlev ← dictGet data "title"
  pure { data := data, id := idv, title := titlev }

/-- The `Live` record: the base-media fields plus `message_count`. -/
structure Live extends WeverseMedia where
  message_count : JValue

/-- Constructor `Live.__init__`: `super().__init__(data)` then
`data["extension"]["mediaInfo"]["chat"]["messageCount"]`. -/
def Live.init (data : JValue) : Except PyError Live := do
  let base ← WeverseMedia.init data
  let mc ← dictGetPath data ["extension", "mediaInfo", "chat", "messageCount"]
  pure { toWeverseMedia := base, message_count := mc }

/-! ### Spec-side characterizations -/

/-- Is a fallible lookup successful? -/
def isOkB : Except PyError JValue → Bool
  | .ok _ => true
  | .error _ => false

/-- Spec side, for the construction-failure claim: all the required keys of
`Notification.__init__` (every extracted path except the optional
`imageUrl`) resolve in the payload. -/
def requiredKeysPresent (d : JValue) : Bool :=
  isOkB (dictGet d "activityId") && isOkB (dictGet d "read") &&
  isOkB (dictGet d "title") &&
  isOkB (dictGetPath d ["message", "values", "ko"]) &&
  isOkB (dictGetPath d ["message", "values", "ja"]) &&
  isOkB (dictGetPath d ["message", "values", "en"]) &&
  isOkB (dictGet d "logoImageUrl") && isOkB (dictGet d "webUrl") &&
  isOkB (dictGet d "time") && isOkB (dictGet d "count") &&
  isOkB (dictGetPath d ["community", "communityId"])

/-! ### Concrete payloads and notifications used by the witnesses -/

def samplePayload : JValue := .obj
  [("activityId", .int 1), ("read", .bool true), ("title", .str "t"),
   ("message", .obj [("values", .obj
      [("ko", .str "kmsg"), ("ja", .str "jmsg"), ("en", .str "emsg")])]),
   ("logoImageUrl", .str "logo"), ("webUrl", .str "web"), ("time", .int 10),
   ("count", .int 2), ("community", .obj [("communityId", .int 3)]),
   ("messageId", .str "0-12_MEDIA_COMMENT")]

def samplePayload2 : JValue := .obj
  [("activityId", .int 1), ("read", .bool false), ("title", .str "t2"),
   ("message", .obj [("values", .obj
      [("ko", .str "k2"), ("ja", .str "j2"), ("en", .str "e2")])]),
   ("logoImageUrl", .str "logo2"), ("webUrl", .str "web2"), ("time", .int 11),
   ("count", .int 0), ("community", .obj [("communityId", .int 4)]),
   ("messageId", .str "NOTICE123")]

/-- The notification `Notification.__init__` builds from `samplePayload`. -/
def sampleNotif : Notification :=
  Notification.mk samplePayload (.int 1) (.bool true) (.str "t") (.str "kmsg")
    (.str "jmsg") (.str "emsg") (.str "logo") none (.str "web") (.int 10)
    (.int 2) (.int 3)

/-- The notification `Notification.__init__` builds from `samplePayload2`. -/
def sampleNotif2 : Notification :=
  Notification.mk samplePayload2 (.int 1) (.bool false) (.str "t2") (.str "k2")
    (.str "j2") (.str "e2") (.str "logo2") none (.str "web2") (.int 11)
    (.int 0) (.int 4)

def sampleLivePayload : JValue := .obj
  [("id", .int 7), ("title", .str "live"),
   ("extension", .obj [("mediaInfo", .obj
      [("chat", .obj [("messageCount", .int 100)])])])]

/-- A notification whose `messageId` contains no classification marker. -/
def plainNotif : Notification :=
  Notification.mk (.obj [("messageId", .str "abc")]) .null .null .null .null
    .null .null .null none .null .null .null .null

/-- A notification whose `messageId` is the dashless `"NOTICE123"`. -/
def noticeNotif : Notification :=
  Notification.mk (.obj [("messageId", .str "NOTICE123")]) .null .null .null
    .null .null .null .null none .null .null .null .null

/-- A notification whose `authors` first element has no `memberId` key. -/
def badAuthorsNotif : Notification :=
  Notification.mk (.obj [("authors", .arr [.obj []])]) .null .null .null
    .null .null .null .null none .null .null .null .null

/-- A notification with `authors = [{"memberId": "abc"}]`. -/
def authorsNotif : Notification :=
  Notification.mk (.obj [("authors", .arr [.obj [("memberId", .str "abc")]])])
    .null .null .null .null .null .null .null none .null .null .null .null

/-! ### Helper lemmas -/

theorem isOkB_iff {e : Except PyError JValue} : isOkB e = true ↔ ∃ v, e = .ok v := by
  cases e <;> simp [isOkB]

theorem ok_bind {α β : Type} {a : α} {f : α → Except PyError β} :
    ((.ok a : Except PyError α) >>= f) = f a := rfl

theorem error_bind {α β : Type} {e : PyError} {f : α → Except PyError β} :
    ((.error e : Except PyError α) >>= f) = .error e := rfl

theorem bind_ok {α β : Type} {x : Except PyError α} {f : α → Except PyError β} {b : β}
    (h : (x >>= f) = .ok b) : ∃ a, x = .ok a ∧ f a = .ok b := by
  cases x with
  | error e => simp [Bind.bind, Except.bind] at h
  | ok a => exact ⟨a, rfl, by simpa [Bind.bind, Except.bind] using h⟩

theorem dictGet_ok_obj {d : JValue} {k : String} {v : JValue}
    (h : dictGet d k = .ok v) : ∃ fs, d = .obj fs := by
  cases d with
  | obj fs => exact ⟨fs, rfl⟩
  | _ => simp [dictGet] at h

/-- Everything `Notification.__init__` establishes about a successfully
constructed notification. -/
theorem init_ok_inv {d : JValue} {n : Notification}
    (h : Notification.init d = .ok n) :
    n.data = d ∧ dictGet d "activityId" = .ok n.id ∧
    dictGetOpt d "imageUrl" = .ok n.image_url ∧ requiredKeysPresent d = true := by
  unfold Notification.init at h
  obtain ⟨idv, h1, h⟩ := bind_ok h
  obtain ⟨readv, h2, h⟩ := bind_ok h
  obtain ⟨titlev, h3, h⟩ := bind_ok h
  obtain ⟨ko, h4, h⟩ := bind_ok h
  obtain ⟨ja, h5, h⟩ := bind_ok h
  obtain ⟨en, h6, h⟩ := bind_ok h
  obtain ⟨logo, h7, h⟩ := bind_ok h
  obtain ⟨img, h8, h⟩ := bind_ok h
  obtain ⟨web, h9, h⟩ := bind_ok h
  obtain ⟨timev, h10, h⟩ := bind_ok h
  obtain ⟨countv, h11, h⟩ := bind_ok h
  obtain ⟨comm, h12, h⟩ := bind_ok h
  have hn : Notification.mk d idv readv titlev ko ja en logo img web timev
      countv comm = n := by
    simpa [pure, Except.pure] using h
  subst hn
  refine ⟨rfl, h1, h8, ?_⟩
  simp [requiredKeysPresent, h1, h2, h3, h4, h5, h6, h7, h9, h10, h11, h12, isOkB]

/-- Converse: when every required key resolves, construction succeeds. -/
theorem init_ok_of_required {d : JValue} (h : requiredKeysPresent d = true) :
    ∃ n, Notification.init d = .ok n := by
  unfold requiredKeysPresent at h
  simp only [Bool.and_eq_true, isOkB_iff] at h
  obtain ⟨⟨⟨⟨⟨⟨⟨⟨⟨⟨⟨v1, e1⟩, v2, e2⟩, v3, e3⟩, v4, e4⟩, v5, e5⟩, v6, e6⟩,
    v7, e7⟩, v9, e9⟩, v10, e10⟩, v11, e11⟩, v12, e12⟩ := h
  obtain ⟨fs, rfl⟩ := dictGet_ok_obj e1
  refine ⟨Notification.mk (.obj fs) v1 v2 v3 v4 v5 v6 v7
    ((fs.find? (fun p => p.1 == "imageUrl")).map Prod.snd) v9 v10 v11 v12, ?_⟩
  simp only [Notification.init, e1, ok_bind, e2, e3, e4, e5, e6, e7, e9, e10,
    e11, e12, dictGetOpt]
  rfl

/-- Python `==` never distinguishes values that hash differently: on
JSON-shaped values, `pyEq` implies equal `pyHash` results (the numeric
coercion is hash-consistent, `hash(True) == hash(1)`). -/
theorem pyEq_hash {a b : JValue} (h : JValue.pyEq a b = true) :
    pyHash a = pyHash b := by
  cases a <;> cases b <;> simp [JValue.pyEq] at h <;> try rfl
  all_goals try (subst h; try rfl)
  all_goals rename_i x
  · cases x <;> rfl
  · cases x <;> rfl

/-! ### The claims -/

/-- C1: for valid payloads, `Notification(P).id == P["activityId"]`, and two
constructed notifications compare equal exactly when the two `activityId`
payload values compare equal. -/
theorem claim_C1 (P P2 : JValue) (n n2 : Notification)
    (h : Notification.init P = .ok n) (h2 : Notification.init P2 = .ok n2) :
    dictGet P "activityId" = .ok n.id ∧
    (Notification.beq n (.notif n2) = .ok true ↔
      ∃ v v2, dictGet P "activityId" = .ok v ∧
        dictGet P2 "activityId" = .ok v2 ∧ JValue.pyEq v v2 = true) := by
  obtain ⟨-, hid, -, -⟩ := init_ok_inv h
  obtain ⟨-, hid2, -, -⟩ := init_ok_inv h2
  refine ⟨hid, ?_, ?_⟩
  · intro hb
    have hpe : JValue.pyEq n.id n2.id = true := by
      simpa [Notification.beq] using hb
    exact ⟨n.id, n2.id, hid, hid2, hpe⟩
  · rintro ⟨v, v2, hv, hv2, hpe⟩
    have ev : n.id = v := by rw [hid] at hv; exact Except.ok.inj hv
    have ev2 : n2.id = v2 := by rw [hid2] at hv2; exact Except.ok.inj hv2
    rw [Notification.beq, ev, ev2, hpe]

theorem claim_C1_witness :
    dictGet samplePayload "activityId" = .ok sampleNotif.id ∧
    (Notification.beq sampleNotif (.notif sampleNotif2) = .ok true ↔
      ∃ v v2, dictGet samplePayload "activityId" = .ok v ∧
        dictGet samplePayload2 "activityId" = .ok v2 ∧
        JValue.pyEq v v2 = true) :=
  claim_C1 samplePayload samplePayload2 sampleNotif sampleNotif2 rfl rfl

/-- C2: comparing a notification with any non-`Notification` value raises
`NotImplementedError` instead of returning `False`. -/
theorem claim_C2 (n : Notification) (v : JValue) :
    Notification.beq n (.jval v) = .error .notImplementedError := rfl

/-- C6: construction succeeds exactly when every required key resolves
(`imageUrl` is not among them), and a payload without `imageUrl` yields
`image_url = None`. -/
theorem claim_C6 (d : JValue) :
    ((∃ n, Notification.init d = .ok n) ↔ requiredKeysPresent d = true) ∧
    (∀ n, Notification.init d = .ok n → dictGetOpt d "imageUrl" = .ok none →
      n.image_url = none) := by
  refine ⟨⟨?_, ?_⟩, ?_⟩
  · rintro ⟨n, hn⟩
    exact (init_ok_inv hn).2.2.2
  · exact init_ok_of_required
  · intro n hn himg
    obtain ⟨-, -, himg', -⟩ := init_ok_inv hn
    rw [himg] at himg'
    exact (Except.ok.inj himg').symm

theorem claim_C6_witness :
    ((∃ n, Notification.init samplePayload = .ok n) ↔
      requiredKeysPresent samplePayload = true) ∧
    (∀ n, Notification.init samplePayload = .ok n →
      dictGetOpt samplePayload "imageUrl" = .ok none → n.image_url = none) :=
  claim_C6 samplePayload

/-- C9: the hash of a constructed notification is `hash(P["activityId"])`,
and equal notifications hash alike. -/
theorem claim_C9 (P : JValue) (n : Notification)
    (h : Notification.init P = .ok n) :
    (∀ v, dictGet P "activityId" = .ok v → Notification.hash n = pyHash v) ∧
    (∀ n2 : Notification, Notification.beq n (.notif n2) = .ok true →
      Notification.hash n = Notification.hash n2) := by
  obtain ⟨-, hid, -, -⟩ := init_ok_inv h
  constructor
  · intro v hv
    rw [hid] at hv
    rw [Notification.hash, Except.ok.inj hv]
  · intro n2 hb
    have hpe : JValue.pyEq n.id n2.id = true := by
      simpa [Notification.beq] using hb
    simpa [Notification.hash] using pyEq_hash hpe

theorem claim_C9_witness :
    (∀ v, dictGet samplePayload "activityId" = .ok v →
      Notification.hash sampleNotif = pyHash v) ∧
    (∀ n2 : Notification, Notification.beq sampleNotif (.notif n2) = .ok true →
      Notification.hash sampleNotif = Notification.hash n2) :=
  claim_C9 samplePayload sampleNotif rfl

/-- C7: a constructed `Live` carries
`payload.extension.mediaInfo.chat.messageCount` as its `message_count`, and
construction fails whenever that path does not resolve.  (The base
`WeverseMedia` constructor is modelled from the spec; see
`WeverseMedia.init`.) -/
theorem claim_C7 (d : JValue) :
    (∀ l, Live.init d = .ok l →
      dictGetPath d ["extension", "mediaInfo", "chat", "messageCount"] =
        .ok l.message_count) ∧
    (∀ e, dictGetPath d ["extension", "mediaInfo", "chat", "messageCount"] =
        .error e → ∃ e2, Live.init d = .error e2) := by
  constructor
  · intro l hl
    unfold Live.init at hl
    obtain ⟨base, hb, hl⟩ := bind_ok hl
    obtain ⟨mc, hmc, hl⟩ := bind_ok hl
    have hml : Live.mk base mc = l := by simpa [pure, Except.pure] using hl
    subst hml
    exact hmc
  · intro e he
    unfold Live.init
    cases hb : WeverseMedia.init d with
    | error e2 => exact ⟨e2, by rw [error_bind]⟩
    | ok base => exact ⟨e, by rw [ok_bind, he, error_bind]⟩

theorem claim_C7_witness :
    (∀ l, Live.init sampleLivePayload = .ok l →
      dictGetPath sampleLivePayload
        ["extension", "mediaInfo", "chat", "messageCount"] =
        .ok l.message_count) ∧
    (∀ e, dictGetPath sampleLivePayload
        ["extension", "mediaInfo", "chat", "messageCount"] = .error e →
      ∃ e2, Live.init sampleLivePayload = .error e2) :=
  claim_C7 sampleLivePayload

/-- Lemma: `List.find?` returns the element at position `i` when it satisfies the
predicate and no earlier element does. -/
theorem find?_at_index {α : Type} (p : α → Bool) :
    ∀ (l : List α) (i : Nat) (hi : i < l.length),
      p (l.get ⟨i, hi⟩) = true →
      (l.take i).all (fun a => !p a) = true →
      l.find? p = some (l.get ⟨i, hi⟩) := by
  intro l
  induction l with
  | nil => intro i hi; exact absurd hi (by simp)
  | cons a as ih =>
    intro i hi hp hmiss
    cases i with
    | zero => exact List.find?_cons_of_pos as hp
    | succ j =>
      simp only [List.take_succ_cons, List.all_cons, Bool.and_eq_true,
        Bool.not_eq_eq_eq_not, Bool.not_true] at hmiss
      rw [List.find?_cons_of_neg as (by simp [hmiss.1])]
      exact ih j (Nat.lt_of_succ_lt_succ hi) hp hmiss.2

/-- C3: when the `i`-th marker of the declared table occurs in `messageId`
and no earlier one does, `post_type` returns the enum value of the `i`-th marker. -/
theorem claim_C3 (n : Notification) (s : String) (i : Nat)
    (hi : i < postTypesTable.length)
    (hmid : dictGet n.data "messageId" = .ok (.str s))
    (hhit : containsL (postTypesTable.get ⟨i, hi⟩).1.data s.data = true)
    (hmiss : (postTypesTable.take i).all
      (fun p => !containsL p.1.data s.data) = true) :
    n.postType = .ok (.enum (postTypesTable.get ⟨i, hi⟩).2) := by
  simp only [Notification.postType, hmid, ok_bind]
  rw [find?_at_index _ postTypesTable i hi hhit hmiss]

theorem claim_C3_witness :
    sampleNotif.postType = .ok (.enum PostTypes.MEDIA_COMMENT) :=
  claim_C3 sampleNotif "0-12_MEDIA_COMMENT" 2 (by decide) rfl rfl rfl

/-- C5: when no marker of the table occurs in `messageId`, `post_type`
returns the sentinel string `"NOT IMPLEMENTED"` instead of raising. -/
theorem claim_C5 (n : Notification) (s : String)
    (hmid : dictGet n.data "messageId" = .ok (.str s))
    (hmiss : postTypesTable.all (fun p => !containsL p.1.data s.data) = true) :
    n.postType = .ok (.rawString "NOT IMPLEMENTED") := by
  simp only [Notification.postType, hmid, ok_bind]
  have hnone : postTypesTable.find? (fun p => containsL p.1.data s.data) = none := by
    rw [List.find?_eq_none]
    intro p hp
    have hmp := List.all_eq_true.mp hmiss p hp
    simp only [Bool.not_eq_eq_eq_not, Bool.not_true] at hmp
    simp [hmp]
  rw [hnone]

theorem claim_C5_witness :
    plainNotif.postType = .ok (.rawString "NOT IMPLEMENTED") :=
  claim_C5 plainNotif "abc" rfl rfl

/-! ### Properties of the modelled regex searches -/

theorem takeDigits_all : ∀ l : List Char, (takeDigits l).all Char.isDigit = true := by
  intro l
  induction l with
  | nil => rfl
  | cons c cs ih =>
    simp only [takeDigits]
    by_cases hc : c.isDigit
    · simp [hc, ih]
    · simp [hc]

theorem takeDigits_split : ∀ l : List Char, ∃ suf, l = takeDigits l ++ suf ∧
    (suf = [] ∨ ∃ c cs, suf = c :: cs ∧ c.isDigit = false) := by
  intro l
  induction l with
  | nil => exact ⟨[], rfl, Or.inl rfl⟩
  | cons c cs ih =>
    by_cases hc : c.isDigit
    · obtain ⟨suf, hsuf, hend⟩ := ih
      refine ⟨suf, ?_, hend⟩
      simp only [takeDigits, hc, if_true, List.cons_append]
      rw [← hsuf]
    · exact ⟨c :: cs, by simp [takeDigits, hc],
        Or.inr ⟨c, cs, rfl, by simpa using hc⟩⟩

theorem takeDigits_append_digits : ∀ ds t : List Char,
    ds.all Char.isDigit = true → takeDigits (ds ++ t) = ds ++ takeDigits t := by
  intro ds
  induction ds with
  | nil => intro t _; rfl
  | cons c cs ih =>
    intro t h
    simp only [List.all_cons, Bool.and_eq_true] at h
    simp only [List.cons_append, takeDigits, h.1, if_true, List.append_eq]
    rw [ih t h.2]

theorem searchDash_nil : searchDash [] = none := rfl

theorem searchDash_cons_some {c : Char} {cs m0 : List Char}
    (h : matchDashAt (c :: cs) = some m0) :
    searchDash (c :: cs) = some m0 := by
  simp only [searchDash]
  rw [h]

theorem searchDash_cons_none {c : Char} {cs : List Char}
    (h : matchDashAt (c :: cs) = none) :
    searchDash (c :: cs) = searchDash cs := by
  simp only [searchDash]
  rw [h]

theorem searchDigits_nil : searchDigits [] = none := rfl

theorem searchDigits_cons_some {c : Char} {cs m0 : List Char}
    (h : matchDigitsAt (c :: cs) = some m0) :
    searchDigits (c :: cs) = some m0 := by
  simp only [searchDigits]
  rw [h]

theorem searchDigits_cons_none {c : Char} {cs : List Char}
    (h : matchDigitsAt (c :: cs) = none) :
    searchDigits (c :: cs) = searchDigits cs := by
  simp only [searchDigits]
  rw [h]

theorem isDashMatchB_inv {m : List Char} (h : isDashMatchB m = true) :
    ∃ d ds, m = d :: '-' :: ds ∧ d.isDigit = true ∧ ds ≠ [] ∧
      ds.all Char.isDigit = true := by
  match m with
  | [] => simp [isDashMatchB] at h
  | [d] => simp [isDashMatchB] at h
  | d :: c :: ds =>
    simp only [isDashMatchB, Bool.and_eq_true] at h
    obtain ⟨⟨⟨hd, hc⟩, hne⟩, hall⟩ := h
    have hc' : c = '-' := eq_of_beq hc
    subst hc'
    refine ⟨d, ds, rfl, hd, ?_, hall⟩
    intro he
    rw [he] at hne
    simp at hne

theorem matchDashAt_some {l m : List Char} (h : matchDashAt l = some m) :
    ∃ d rest, l = d :: '-' :: rest ∧ d.isDigit = true ∧
      m = d :: '-' :: takeDigits rest ∧ takeDigits rest ≠ [] := by
  match l with
  | [] => simp [matchDashAt] at h
  | [d] => simp [matchDashAt] at h
  | d :: c :: rest =>
    simp only [matchDashAt] at h
    by_cases hcond : (d.isDigit && c == '-' && !(takeDigits rest).isEmpty) = true
    · rw [if_pos hcond] at h
      simp only [Bool.and_eq_true] at hcond
      obtain ⟨⟨hd, hc⟩, hne⟩ := hcond
      have hc' : c = '-' := eq_of_beq hc
      subst hc'
      refine ⟨d, rest, rfl, hd, (Option.some.inj h).symm, ?_⟩
      intro he
      rw [he] at hne
      simp at hne
    · rw [if_neg hcond] at h
      exact absurd h (by simp)

theorem matchDashAt_of_isDashMatch {m suf : List Char}
    (hm : isDashMatchB m = true) : matchDashAt (m ++ suf) ≠ none := by
  obtain ⟨d, ds, rfl, hd, hne, hall⟩ := isDashMatchB_inv hm
  simp only [List.cons_append, matchDashAt]
  rw [takeDigits_append_digits ds suf hall]
  have hemp : (ds ++ takeDigits suf).isEmpty = false := by
    cases ds with
    | nil => exact absurd rfl hne
    | cons a as => rfl
  simp [hd, hemp]

theorem searchDash_none : ∀ l : List Char, searchDash l = none →
    ∀ pre m suf, l = pre ++ m ++ suf → isDashMatchB m = false := by
  intro l
  induction l with
  | nil =>
    intro _ pre m suf hl
    obtain ⟨h1, -⟩ := List.append_eq_nil.mp hl.symm
    obtain ⟨-, h4⟩ := List.append_eq_nil.mp h1
    rw [h4]
    rfl
  | cons c cs ih =>
    intro h pre m suf hl
    have hmd : matchDashAt (c :: cs) = none := by
      cases hmd : matchDashAt (c :: cs) with
      | none => rfl
      | some m0 =>
        rw [searchDash_cons_some hmd] at h
        exact absurd h (by simp)
    have hrec : searchDash cs = none := by
      rwa [searchDash_cons_none hmd] at h
    cases pre with
    | nil =>
      simp only [List.nil_append] at hl
      cases hmb : isDashMatchB m with
      | false => rfl
      | true =>
        exfalso
        exact matchDashAt_of_isDashMatch hmb (hl ▸ hmd)
    | cons c0 pre' =>
      simp only [List.cons_append] at hl
      injection hl with h1 h2
      exact ih hrec pre' m suf h2

theorem searchDash_some : ∀ l m, searchDash l = some m →
    isDashMatchB m = true ∧
    ∃ pre suf, l = pre ++ m ++ suf ∧
      ∀ pre' m' suf', l = pre' ++ m' ++ suf' → isDashMatchB m' = true →
        pre.length ≤ pre'.length ∧
          (pre'.length = pre.length → m'.length ≤ m.length) := by
  intro l
  induction l with
  | nil =>
    intro m h
    rw [searchDash_nil] at h
    exact absurd h (by simp)
  | cons c cs ih =>
    intro m h
    cases hmd : matchDashAt (c :: cs) with
    | some m0 =>
      have hm : m0 = m := by
        rw [searchDash_cons_some hmd] at h
        exact Option.some.inj h
      subst hm
      obtain ⟨d, rest, hl, hd, hm0, hne⟩ := matchDashAt_some hmd
      have hdm : isDashMatchB m0 = true := by
        rw [hm0]
        simp only [isDashMatchB, Bool.and_eq_true]
        refine ⟨⟨⟨hd, by rfl⟩, ?_⟩, takeDigits_all rest⟩
        cases htd : takeDigits rest with
        | nil => exact absurd htd hne
        | cons a as => rfl
      refine ⟨hdm, [], ?_⟩
      obtain ⟨suf0, hrest, -⟩ := takeDigits_split rest
      refine ⟨suf0, ?_, ?_⟩
      · rw [hl, hm0]
        simp only [List.nil_append, List.cons_append]
        rw [← hrest]
      · intro pre' m' suf' hl' hdm'
        refine ⟨Nat.zero_le _, ?_⟩
        intro hlen
        have hpre' : pre' = [] := List.eq_nil_of_length_eq_zero hlen
        subst hpre'
        simp only [List.nil_append] at hl'
        obtain ⟨d', ds', hm', hd', hne', hall'⟩ := isDashMatchB_inv hdm'
        subst hm'
        rw [hl] at hl'
        simp only [List.cons_append] at hl'
        injection hl' with e1 hl'
        injection hl' with e2 hl'
        rw [hm0]
        simp only [List.length_cons]
        have : takeDigits rest = ds' ++ takeDigits suf' := by
          rw [hl', takeDigits_append_digits ds' suf' hall']
        rw [this]
        simp [List.length_append]
    | none =>
      have hrec : searchDash cs = some m := by
        rwa [searchDash_cons_none hmd] at h
      obtain ⟨hdm, pre, suf, hl, hmin⟩ := ih m hrec
      refine ⟨hdm, c :: pre, suf, by simp [hl], ?_⟩
      intro pre' m' suf' hl' hdm'
      cases pre' with
      | nil =>
        exfalso
        simp only [List.nil_append] at hl'
        exact matchDashAt_of_isDashMatch hdm' (hl' ▸ hmd)
      | cons c0 pre'' =>
        simp only [List.cons_append] at hl'
        injection hl' with h1 h2
        have hrec2 := hmin pre'' m' suf' h2 hdm'
        refine ⟨by simpa [List.length_cons] using Nat.succ_le_succ hrec2.1, ?_⟩
        intro hlen
        simp only [List.length_cons] at hlen
        exact hrec2.2 (Nat.succ_injective hlen)

theorem matchDigitsAt_some {l m : List Char} (h : matchDigitsAt l = some m) :
    ∃ c cs, l = c :: cs ∧ c.isDigit = true ∧ m = c :: takeDigits cs := by
  match l with
  | [] => simp [matchDigitsAt] at h
  | c :: cs =>
    simp only [matchDigitsAt] at h
    by_cases hc : c.isDigit
    · rw [if_pos hc] at h
      exact ⟨c, cs, rfl, hc, (Option.some.inj h).symm⟩
    · rw [if_neg hc] at h
      exact absurd h (by simp)

theorem matchDigitsAt_none {l : List Char} (h : matchDigitsAt l = none) :
    ∀ c cs, l = c :: cs → c.isDigit = false := by
  intro c cs hl
  subst hl
  simp only [matchDigitsAt] at h
  by_cases hc : c.isDigit
  · rw [if_pos hc] at h
    exact absurd h (by simp)
  · simpa using hc

theorem searchDigits_none : ∀ l : List Char, searchDigits l = none →
    ∀ c ∈ l, c.isDigit = false := by
  intro l
  induction l with
  | nil => intro _ c hc; simp at hc
  | cons c0 cs ih =>
    intro h c hc
    have hmd : matchDigitsAt (c0 :: cs) = none := by
      cases hmd : matchDigitsAt (c0 :: cs) with
      | none => rfl
      | some m0 =>
        rw [searchDigits_cons_some hmd] at h
        exact absurd h (by simp)
    have hrec : searchDigits cs = none := by
      rwa [searchDigits_cons_none hmd] at h
    cases List.mem_cons.mp hc with
    | inl he => exact he ▸ matchDigitsAt_none hmd c0 cs rfl
    | inr hmem => exact ih hrec c hmem

theorem searchDigits_some : ∀ l m, searchDigits l = some m →
    ∃ pre suf, l = pre ++ m ++ suf ∧ isDigitRunB m = true ∧
      (∀ c ∈ pre, c.isDigit = false) ∧
      (suf = [] ∨ ∃ c cs, suf = c :: cs ∧ c.isDigit = false) := by
  intro l
  induction l with
  | nil =>
    intro m h
    rw [searchDigits_nil] at h
    exact absurd h (by simp)
  | cons c0 cs ih =>
    intro m h
    cases hmd : matchDigitsAt (c0 :: cs) with
    | some m0 =>
      have hm : m0 = m := by
        rw [searchDigits_cons_some hmd] at h
        exact Option.some.inj h
      subst hm
      obtain ⟨c, cs', hl, hc, hm0⟩ := matchDigitsAt_some hmd
      injection hl with e1 e2
      subst e1; subst e2
      obtain ⟨suf0, hcs, hend⟩ := takeDigits_split cs
      refine ⟨[], suf0, ?_, ?_, by simp, hend⟩
      · rw [hm0]
        simp only [List.nil_append, List.cons_append]
        rw [← hcs]
      · rw [hm0]
        simp [isDigitRunB, hc, takeDigits_all]
    | none =>
      have hrec : searchDigits cs = some m := by
        rwa [searchDigits_cons_none hmd] at h
      obtain ⟨pre, suf, hl, hrun, hpre, hsuf⟩ := ih m hrec
      refine ⟨c0 :: pre, suf, by simp [hl], hrun, ?_, hsuf⟩
      intro c hc
      cases List.mem_cons.mp hc with
      | inl he => exact he ▸ matchDigitsAt_none hmd c0 cs rfl
      | inr hmem => exact hpre c hmem

/-- The computation `post_id` performs once `messageId` is a string. -/
theorem postId_eq {n : Notification} {s : String}
    (hmid : dictGet n.data "messageId" = .ok (.str s)) :
    n.postId = (match searchDash s.data with
      | some m => .ok (String.mk m)
      | none =>
        match searchDigits s.data with
        | some m => .ok (String.mk m)
        | none => .error .attributeError) := by
  simp only [Notification.postId, hmid, ok_bind]

/-- C4: `post_id` returns the leftmost (and, at that position, longest)
substring of `messageId` matching `\d-\d+`; when no such substring exists it
returns the first maximal run of digits. -/
theorem claim_C4 (n : Notification) (s : String)
    (hmid : dictGet n.data "messageId" = .ok (.str s)) :
    ((∃ pre m suf, s.data = pre ++ m ++ suf ∧ isDashMatchB m = true) →
      ∃ pre m suf, s.data = pre ++ m ++ suf ∧ isDashMatchB m = true ∧
        n.postId = .ok (String.mk m) ∧
        ∀ pre' m' suf', s.data = pre' ++ m' ++ suf' → isDashMatchB m' = true →
          pre.length ≤ pre'.length ∧
            (pre'.length = pre.length → m'.length ≤ m.length)) ∧
    ((∀ pre m suf, s.data = pre ++ m ++ suf → isDashMatchB m = false) →
      (∃ c ∈ s.data, c.isDigit = true) →
      ∃ pre m suf, s.data = pre ++ m ++ suf ∧ isDigitRunB m = true ∧
        n.postId = .ok (String.mk m) ∧ (∀ c ∈ pre, c.isDigit = false) ∧
        (suf = [] ∨ ∃ c cs, suf = c :: cs ∧ c.isDigit = false)) := by
  constructor
  · rintro ⟨pre0, m0, suf0, hl0, hm0⟩
    cases hsd : searchDash s.data with
    | none =>
      exact absurd (searchDash_none s.data hsd pre0 m0 suf0 hl0)
        (by simp [hm0])
    | some m =>
      obtain ⟨hdm, pre, suf, hl, hmin⟩ := searchDash_some s.data m hsd
      exact ⟨pre, m, suf, hl, hdm, by rw [postId_eq hmid, hsd], hmin⟩
  · intro hnod hdig
    cases hsd : searchDash s.data with
    | some m =>
      obtain ⟨hdm, pre, suf, hl, -⟩ := searchDash_some s.data m hsd
      exact absurd (hnod pre m suf hl) (by simp [hdm])
    | none =>
      cases hsg : searchDigits s.data with
      | none =>
        obtain ⟨c, hc, hcd⟩ := hdig
        exact absurd (searchDigits_none s.data hsg c hc) (by simp [hcd])
      | some m =>
        obtain ⟨pre, suf, hl, hrun, hpre, hsuf⟩ := searchDigits_some s.data m hsg
        exact ⟨pre, m, suf, hl, hrun, by rw [postId_eq hmid, hsd, hsg], hpre, hsuf⟩

theorem claim_C4_witness :
    ((∃ pre m suf, "NOTICE123".data = pre ++ m ++ suf ∧ isDashMatchB m = true) →
      ∃ pre m suf, "NOTICE123".data = pre ++ m ++ suf ∧ isDashMatchB m = true ∧
        noticeNotif.postId = .ok (String.mk m) ∧
        ∀ pre' m' suf', "NOTICE123".data = pre' ++ m' ++ suf' →
          isDashMatchB m' = true →
          pre.length ≤ pre'.length ∧
            (pre'.length = pre.length → m'.length ≤ m.length)) ∧
    ((∀ pre m suf, "NOTICE123".data = pre ++ m ++ suf → isDashMatchB m = false) →
      (∃ c ∈ "NOTICE123".data, c.isDigit = true) →
      ∃ pre m suf, "NOTICE123".data = pre ++ m ++ suf ∧ isDigitRunB m = true ∧
        noticeNotif.postId = .ok (String.mk m) ∧ (∀ c ∈ pre, c.isDigit = false) ∧
        (suf = [] ∨ ∃ c cs, suf = c :: cs ∧ c.isDigit = false)) :=
  claim_C4 noticeNotif "NOTICE123" rfl

/-- C10: when `messageId` is a string containing at least one decimal digit,
`post_id` cannot hit the no-match error branch: it returns a string. -/
theorem claim_C10 (n : Notification) (s : String)
    (hmid : dictGet n.data "messageId" = .ok (.str s))
    (hdig : ∃ c ∈ s.data, c.isDigit = true) :
    ∃ t, n.postId = .ok t := by
  rw [postId_eq hmid]
  cases hsd : searchDash s.data with
  | some m => exact ⟨String.mk m, rfl⟩
  | none =>
    cases hsg : searchDigits s.data with
    | some m => exact ⟨String.mk m, rfl⟩
    | none =>
      obtain ⟨c, hc, hcd⟩ := hdig
      exact absurd (searchDigits_none s.data hsg c hc) (by simp [hcd])

theorem claim_C10_witness : ∃ t, noticeNotif.postId = .ok t :=
  claim_C10 noticeNotif "NOTICE123" rfl (by decide)

/-- When `data.get(k)` returns a value, `data[k]` returns the same. -/
theorem dictGet_of_dictGetOpt_some {d : JValue} {k : String} {v : JValue}
    (h : dictGetOpt d k = .ok (some v)) : dictGet d k = .ok v := by
  cases d with
  | obj fs =>
    simp only [dictGetOpt] at h
    have h' := Except.ok.inj h
    simp only [dictGet]
    cases hf : fs.find? (fun p => p.1 == k) with
    | none => rw [hf] at h'; simp at h'
    | some p =>
      rw [hf] at h'
      have h'' : p.2 = v := by simpa using h'
      exact congrArg Except.ok h''
  | null => exact Except.noConfusion h
  | bool b => exact Except.noConfusion h
  | int i => exact Except.noConfusion h
  | str s => exact Except.noConfusion h
  | arr l => exact Except.noConfusion h

/-- C8 counterexample: `author_id` is not error-free — on a payload whose
`authors` list is non-empty but whose first element lacks `memberId`, it
raises `KeyError`. -/
theorem claim_C8_counterexample :
    badAuthorsNotif.authorId = .error (.keyError "memberId") := rfl

/-- C8 (amended): `author_id` returns the `memberId` of the first author when
`authors` is a non-empty list whose first element carries one, and `None`
when `authors` is absent or the empty list; it can raise when the first
element has no `memberId` key (see the counterexample). -/
theorem claim_C8 (n : Notification) (a : Option JValue)
    (h : dictGetOpt n.data "authors" = .ok a) :
    (a = none → n.authorId = .ok none) ∧
    (a = some (.arr []) → n.authorId = .ok none) ∧
    (∀ first rest m, a = some (.arr (first :: rest)) →
      dictGet first "memberId" = .ok m → n.authorId = .ok (some m)) := by
  refine ⟨?_, ?_, ?_⟩
  · rintro rfl
    simp only [Notification.authorId, h, ok_bind]
    rfl
  · rintro rfl
    simp only [Notification.authorId, h, ok_bind]
    rfl
  · rintro first rest m rfl hm
    have hget : dictGet n.data "authors" = .ok (.arr (first :: rest)) :=
      dictGet_of_dictGetOpt_some h
    have hidx : pyIndex (JValue.arr (first :: rest)) 0 = .ok first := rfl
    simp only [Notification.authorId, h, ok_bind, hget, hidx, hm]
    rfl

theorem claim_C8_witness :
    authorsNotif.authorId = .ok (some (.str "abc")) ∧
    plainNotif.authorId = .ok none :=
  ⟨(claim_C8 authorsNotif (some (.arr [.obj [("memberId", .str "abc")]]))
      rfl).2.2 (.obj [("memberId", .str "abc")]) [] (.str "abc") rfl rfl,
   (claim_C8 plainNotif none rfl).1 rfl⟩

end SunWeverse
